import Mathlib

/-!
# Verification of the geo-image stamp compositor

A shallow embedding of the stamp-compositor pipeline of `src/src/App.jsx`
(the first, Google+OSM hybrid variant, which is the one the claims cite).

Modelling conventions:
* JavaScript strings that may be `undefined` are modelled as `String`
  with `""` standing for "absent": for string values, JS truthiness
  (`s || t`, `filter(Boolean)`, `if (s)`) treats `""` and `undefined`
  identically, so this is faithful for every code path we embed.
* JS numbers are modelled as `ℚ` (exact rationals).  Float64 rounding
  noise and `NaN` are outside the model; every concrete input used below
  is exactly representable.
* `String.length` counts characters where JS counts UTF-16 units; all
  inputs exercised here are ASCII, where the two agree.
-/

/-- JS string disjunction `a || b` for possibly-absent strings. -/
def jsOr (a b : String) : String := if a = "" then b else a

/-- Right-associated JS `||` chain `x₁ || x₂ || ... || ""`. -/
def jsOrChain : List String → String
  | [] => ""
  | x :: l => jsOr x (jsOrChain l)

/-- The first non-empty string of a list (and `""` if there is none);
this is the specification-side reading of a fixed preference order. -/
def firstNonEmpty (l : List String) : String :=
  (l.find? (fun s => !(s == ""))).getD ""

/-- `String(n).padStart(2, "0")` for a natural number (App.jsx line 12). -/
def pad (n : Nat) : String :=
  let s := toString n
  if s.length < 2 then String.mk (List.replicate (2 - s.length) '0') ++ s else s

/-- `formatOffset` (App.jsx lines 13-20): renders the GMT suffix from the
raw `getTimezoneOffset()` minutes.  `Math.floor(abs/60)` on a non-negative
number is natural division. -/
def formatOffset (tzMinutes : Int) : String :=
  let total := -tzMinutes
  let sign := if 0 ≤ total then "+" else "-"
  let abs := total.natAbs
  let hh := pad (abs / 60)
  let mm := pad (abs % 60)
  sign ++ hh ++ ":" ++ mm

/-! ## Nominatim (fallback provider) response model -/

/-- The `address` object of a Nominatim reverse-geocoding response;
only the fields the code reads.  `""` = field absent. -/
structure NomAddress where
  attraction : String := ""
  building : String := ""
  leisure : String := ""
  amenity : String := ""
  poi : String := ""
  town : String := ""
  village : String := ""
  city : String := ""
  suburb : String := ""
  neighbourhood : String := ""
  road : String := ""
  state : String := ""
  postcode : String := ""
  country : String := ""
  deriving Repr, DecidableEq

/-- A parsed Nominatim response (`name`, `display_name`, `address`). -/
structure NomResponse where
  name : String := ""
  display_name : String := ""
  address : NomAddress := {}
  deriving Repr, DecidableEq

/-- JS `s.split(",")[0]`: the prefix of `s` before its first comma. -/
def firstSegment (s : String) : String :=
  String.mk (s.data.takeWhile (fun c => !(c == ',')))

/-- The address-field preference chain of `extractNominatimLandmark`
(App.jsx lines 40-52), in source order. -/
def nomAddrFields (a : NomAddress) : List String :=
  [a.attraction, a.building, a.leisure, a.amenity, a.poi,
   a.town, a.village, a.city, a.suburb, a.neighbourhood, a.road]

/-- `extractNominatimLandmark` (App.jsx lines 32-54).  `none` models a
null/undefined argument (`if (!nom) return ""`). -/
def extractNominatimLandmark : Option NomResponse → String
  | none => ""
  | some nom =>
    if nom.name ≠ "" then nom.name
    else
      let first := firstSegment nom.display_name
      if nom.display_name ≠ "" ∧ first ≠ "" ∧ first.length < 40 then first
      else jsOrChain (nomAddrFields nom.address)

/-- The normalized place triple: `landmark` / `line2` / `addressRaw`
state fields of App.jsx (spec's `PlaceInfo`). -/
structure PlaceInfo where
  landmark : String
  addressLine : String
  fullAddress : String
  deriving Repr, DecidableEq

/-- The `parts` list of the OSM fallback branch of `startCamera`
(App.jsx lines 154-161): candidates in source order, then
`filter(Boolean)`. -/
def nominatimParts (a : NomAddress) : List String :=
  [a.road, jsOr a.neighbourhood a.suburb,
   jsOr a.city (jsOr a.town a.village),
   a.state, a.postcode, a.country].filter (fun s => !(s == ""))

/-- The OSM fallback branch of `startCamera` (App.jsx lines 146-163):
landmark from `extractNominatimLandmark`, `line2 = parts.join(", ")`,
`addressRaw = j.display_name || parts.join(", ")`. -/
def nominatimPlaceInfo (j : NomResponse) : PlaceInfo :=
  { landmark := extractNominatimLandmark (some j)
  , addressLine := String.intercalate ", " (nominatimParts j.address)
  , fullAddress := jsOr j.display_name (String.intercalate ", " (nominatimParts j.address)) }

/-! ## Google (primary provider) response model -/

/-- One entry of `address_components`. -/
structure GComp where
  long_name : String := ""
  deriving Repr, DecidableEq

/-- One entry of `results` in a Google geocoding response.
`types = []` models an absent/empty `types` array (both make the
`r.types && r.types.includes(...)` guard fail).  `address_components = []`
models an absent components array (the code would throw on a
present-but-empty array at line 61; no claim exercises that case). -/
structure GResult where
  types : List String := []
  formatted_address : String := ""
  address_components : List GComp := []
  deriving Repr, DecidableEq

/-- A Google geocoding payload (`status === "OK"` already checked by the
caller); `none` models a null payload or absent `results`. -/
structure GoogleGeo where
  results : List GResult := []
  deriving Repr, DecidableEq

/-- `r.types && (r.types.includes("point_of_interest") || r.types.includes("establishment"))`
(App.jsx line 60). -/
def isEstablishment (r : GResult) : Bool :=
  r.types.contains "point_of_interest" || r.types.contains "establishment"

/-- `comps[0].long_name` guarded accesses; `""` when the array is absent. -/
def headLongName : List GComp → String
  | [] => ""
  | c :: _ => c.long_name

/-- Field extracted from a qualifying (establishment) result:
`r.formatted_address || r.address_components[0].long_name || ""`
(App.jsx line 61). -/
def gField (r : GResult) : String :=
  jsOr r.formatted_address (headLongName r.address_components)

/-- Field extracted in the no-qualifier fallback:
`results[0].address_components?.[0]?.long_name || results[0].formatted_address || ""`
(App.jsx line 66). -/
def gFallbackField (r : GResult) : String :=
  jsOr (headLongName r.address_components) r.formatted_address

/-- `extractGoogleLandmark` (App.jsx lines 57-69): first loop finds the
first establishment-typed result; otherwise fall back to the head of the
list. -/
def extractGoogleLandmark : Option GoogleGeo → String
  | none => ""
  | some geo =>
    match geo.results.find? isEstablishment with
    | some r => gField r
    | none =>
      match geo.results with
      | [] => ""
      | r :: _ => gFallbackField r

/-- `results[0].formatted_address || ""` (App.jsx lines 137-138). -/
def firstFormatted (geo : GoogleGeo) : String :=
  match geo.results with
  | [] => ""
  | r :: _ => r.formatted_address

/-- The Google success branch of `startCamera` (App.jsx lines 133-139). -/
def googlePlaceInfo (geo : GoogleGeo) : PlaceInfo :=
  { landmark := extractGoogleLandmark (some geo)
  , addressLine := firstFormatted geo
  , fullAddress := firstFormatted geo }

/-! ## Text wrapping -/

/-- Character-list splitting at separators satisfying `p`; empty tokens
are kept (the structural analogue of `String.split`). -/
def splitCharsBy (p : Char → Bool) : List Char → List (List Char)
  | [] => [[]]
  | c :: cs =>
    let r := splitCharsBy p cs
    if p c then [] :: r
    else
      match r with
      | [] => [[c]]
      | t :: ts => (c :: t) :: ts

/-- `String(text || "").split(/\s+/)` (App.jsx line 219): whitespace-run
splitting with JS regex semantics — `""` gives `[""]`, and leading or
trailing whitespace contributes one empty token at that end. -/
def jsSplitWs (s : String) : List String :=
  if s = "" then [""]
  else
    let toks := ((splitCharsBy Char.isWhitespace s.data).map String.mk).filter
      (fun t => !(t == ""))
    let lead := if (s.data.head?.map Char.isWhitespace).getD false then [""] else []
    let trail := if (s.data.getLast?.map Char.isWhitespace).getD false then [""] else []
    lead ++ toks ++ trail

/-- The word-accumulation loop of `wrapText` (App.jsx lines 222-234).
`wf` abstracts `ctx.measureText(·).width` (the canvas text-measuring
oracle); the result lists every `fillText` emission as
`(line, curY)` — the constant `x` position is omitted. -/
def wrapLoop (wf : String → Nat) (maxW lineHeight : Nat) :
    List String → String → Nat → List (String × Nat)
  | [], line, curY => if line ≠ "" then [(line, curY)] else []
  | w :: ws, line, curY =>
    let testLine := if line ≠ "" then line ++ " " ++ w else w
    if wf testLine > maxW ∧ line ≠ "" then
      (line, curY) :: wrapLoop wf maxW lineHeight ws w (curY + lineHeight)
    else
      wrapLoop wf maxW lineHeight ws testLine curY

/-- `wrapText` (App.jsx lines 218-235), as the list of emitted lines with
their `y` positions. -/
def wrapText (wf : String → Nat) (text : String) (y maxW lineHeight : Nat) :
    List (String × Nat) :=
  wrapLoop wf maxW lineHeight (jsSplitWs text) "" y

/-- Space-joined words, as `wrapText` accumulates them. -/
def joinW : List String → String
  | [] => ""
  | [a] => a
  | a :: b :: l => a ++ " " ++ joinW (b :: l)

/-! ## Coordinate rendering -/

/-- A resolved geographic fix (`coords` state: `{latitude, longitude}`). -/
structure GeoFix where
  latitude : ℚ
  longitude : ℚ
  deriving Repr, DecidableEq

/-- The decimal digit character of `n % 10`. -/
def digitCh (n : Nat) : Char := Char.ofNat (48 + n % 10)

/-- The six fractional digits of `n` scaled by `10^6`. -/
def frac6 (n : Nat) : String :=
  String.mk [digitCh (n / 100000), digitCh (n / 10000), digitCh (n / 1000),
             digitCh (n / 100), digitCh (n / 10), digitCh n]

/-- JS `Number.prototype.toFixed(6)` on exact rationals: round
`|q|·10^6` to the nearest integer (ties up) and print sign, integer
part, dot, six fractional digits. -/
def toFixed6 (q : ℚ) : String :=
  let n : Nat := (⌊|q| * 1000000 + 1/2⌋).toNat
  (if q < 0 then "-" else "") ++ toString (n / 1000000) ++ "." ++ frac6 n

/-- The coordinate line of the stamp (App.jsx line 291):
`lat ? `Lat ${lat.toFixed(6)}° Long ${lon.toFixed(6)}°` : "Lat — Long —"`,
with `lat = coords?.latitude` — note the *truthiness* test on `lat`. -/
def coordLine (coords : Option GeoFix) : String :=
  match coords with
  | none => "Lat — Long —"
  | some g =>
    if g.latitude ≠ 0 then
      "Lat " ++ toFixed6 g.latitude ++ "° Long " ++ toFixed6 g.longitude ++ "°"
    else "Lat — Long —"

/-! ## Static map request and the stamp draw sequence -/

/-- `Math.round` (rounds half toward +infinity), kept in `ℚ`. -/
def jsRound (q : ℚ) : ℚ := ((⌊q + 1/2⌋ : ℤ) : ℚ)

/-- `Math.floor`, kept in `ℚ`. -/
def jsFloor (q : ℚ) : ℚ := ((⌊q⌋ : ℤ) : ℚ)

/-- The parameters of the static-map URL built by `buildMapUrl`
(App.jsx lines 183-192): provider choice, center, zoom 15, square size
and a marker at the center. -/
structure MapRequest where
  googleProvider : Bool
  lat : ℚ
  lon : ℚ
  zoom : Nat
  size : ℚ
  deriving Repr, DecidableEq

/-- `buildMapUrl` (App.jsx lines 183-192): `if (!lat || !lon) return null`
is a JS truthiness test, so an exactly-zero coordinate yields `null`;
otherwise a Google or OSM static-map request at zoom 15. -/
def buildMapUrl (googleKey : String) (lat lon : ℚ) (size : ℚ) : Option MapRequest :=
  if lat = 0 ∨ lon = 0 then none
  else some { googleProvider := googleKey ≠ "", lat := lat, lon := lon, zoom := 15, size := size }

/-- One drawing operation of `drawStampOnCanvas` (App.jsx lines 238-311),
in source order; geometry arguments are canvas-space rationals. -/
inductive DrawOp where
  | panelBg (x y w h r : ℚ)
  | mapImage (req : MapRequest) (x y w h : ℚ)
  | mapPlaceholder (x y w h : ℚ)
  | wrapTextOp (s : String) (x y maxW lineHeight : ℚ)
  | textOp (s : String) (x y : ℚ)
  | badgeBg (x y w h r : ℚ)
  | badgeLabel (s : String) (x y : ℚ)
  | badgeDot (x y r : ℚ)
  deriving Repr, DecidableEq

/-- Stamp geometry (App.jsx lines 240-244, 254-256, 273-274):
`margin`, `stampH`, `stampW`, positions of the map square. -/
def marginOf (w h : ℚ) : ℚ := jsRound (min w h * (3/100))

def stampHof (h : ℚ) : ℚ := jsRound (min (h * (22/100)) 220)

def stampWof (w h : ℚ) : ℚ := min (w - marginOf w h * 2) (jsRound (w * (86/100)))

def stampYof (w h : ℚ) : ℚ := h - stampHof h - marginOf w h

def mapSizeOf (w h : ℚ) : ℚ := min 120 (stampHof h - marginOf w h * 2)

def mapXof (w h : ℚ) : ℚ := marginOf w h + marginOf w h

def mapYof (w h : ℚ) : ℚ := stampYof w h + marginOf w h

/-- `Math.max(120, Math.floor(mapSize))` (App.jsx line 259). -/
def mapReqSize (w h : ℚ) : ℚ := max 120 (jsFloor (mapSizeOf w h))

/-- `const mapUrl = lat && lon ? buildMapUrl(lat, lon, ...) : null`
(App.jsx lines 257-259): truthiness on both coordinates, then
`buildMapUrl`. -/
def mapUrlOf (coords : Option GeoFix) (googleKey : String) (size : ℚ) : Option MapRequest :=
  match coords with
  | none => none
  | some g =>
    if g.latitude ≠ 0 ∧ g.longitude ≠ 0 then buildMapUrl googleKey g.latitude g.longitude size
    else none

/-- The map-region drawing of `drawStampOnCanvas` (App.jsx lines 260-270):
with a URL, `loadImage` either resolves (`fetchOk = true`, image drawn) or
rejects — and the `catch` block *ignores* the failure, drawing nothing;
with no URL, a flat `#333` square is drawn. -/
def mapOps (mapUrl : Option MapRequest) (fetchOk : Bool) (x y size : ℚ) : List DrawOp :=
  match mapUrl with
  | some u => if fetchOk then [DrawOp.mapImage u x y size size] else []
  | none => [DrawOp.mapPlaceholder x y size size]

/-- The panel background op (App.jsx lines 246-251). -/
def stampPanelOp (w h : ℚ) : DrawOp :=
  DrawOp.panelBg (marginOf w h) (stampYof w h) (stampWof w h) (stampHof h) 20

/-- The text and badge operations of `drawStampOnCanvas`
(App.jsx lines 272-310), in source order. -/
def stampTail (w h : ℚ) (coords : Option GeoFix)
    (landmark line2 addressRaw timeString : String) : List DrawOp :=
  let margin := marginOf w h
  let stampH := stampHof h
  let stampY := stampYof w h
  let mapSize := mapSizeOf w h
  let textX := mapXof w h + mapSize + margin
  let textWidth := stampWof w h - (mapSize + margin * 4)
  let l1 := jsOr landmark
    (if addressRaw ≠ "" then firstSegment addressRaw else "Unknown location")
  let line2Y := stampY + margin + jsRound (stampH * (14/100)) + 10
  let bottomY := stampY + stampH - margin - jsRound (stampH * (95/1000)) - 6
  let badgeX := marginOf w h + stampWof w h - 110 - margin
  let badgeY := stampY + stampH - 30 - margin / 2
  [DrawOp.wrapTextOp l1 textX (stampY + margin) textWidth (jsRound (stampH * (14/100)) + 6),
   DrawOp.wrapTextOp (jsOr line2 addressRaw) textX line2Y textWidth (jsRound (stampH * (10/100)) + 4),
   DrawOp.textOp (coordLine coords) textX bottomY,
   DrawOp.textOp timeString textX (bottomY + jsRound (stampH * (95/1000)) + 6),
   DrawOp.badgeBg badgeX badgeY 110 30 8,
   DrawOp.badgeLabel "GPS Map Camera" (badgeX + 10) (badgeY + 15),
   DrawOp.badgeDot (badgeX + 110 - 18) (badgeY + 15) 6]

/-- `drawStampOnCanvas` (App.jsx lines 238-311) as its full draw
sequence: panel background, then the map region, then text and badge.
`fetchOk` is the outcome of the `loadImage` fetch. -/
def drawStampOps (googleKey : String) (w h : ℚ) (coords : Option GeoFix)
    (landmark line2 addressRaw timeString : String) (fetchOk : Bool) : List DrawOp :=
  stampPanelOp w h ::
    (mapOps (mapUrlOf coords googleKey (mapReqSize w h)) fetchOk
        (mapXof w h) (mapYof w h) (mapSizeOf w h)
      ++ stampTail w h coords landmark line2 addressRaw timeString)

/-- Recognizers for map-region and badge operations. -/
def isMapPlaceholderB : DrawOp → Bool
  | DrawOp.mapPlaceholder _ _ _ _ => true
  | _ => false

def isMapImageB : DrawOp → Bool
  | DrawOp.mapImage _ _ _ _ _ => true
  | _ => false

def isBadgeLabelB : DrawOp → Bool
  | DrawOp.badgeLabel _ _ _ => true
  | _ => false

def isWrapTextOf (s : String) : DrawOp → Bool
  | DrawOp.wrapTextOp t _ _ _ _ => t == s
  | _ => false

/-! ## Capture and orientation -/

/-- `captureAndDownload` canvas sizing (App.jsx lines 321-324):
`video.videoWidth || 1280`, `video.videoHeight || 720`; the frame is then
drawn with `ctx.drawImage(video, 0, 0, w, h)` — unrotated, unflipped. -/
def captureDims (videoW videoH : Nat) : Nat × Nat :=
  (if videoW = 0 then 1280 else videoW, if videoH = 0 then 720 else videoH)

/-- Modelled from the spec: §4.4 "Frame Orientation Corrector" — this
component is code of the repository missing from `src/` (the spec
describes three near-duplicate pipeline variants, and §9 notes the
source samples an orientation angle from platform APIs; neither of the
two variants present under `src/` contains it).  Cosine of the four
right angles. -/
def cosd : Nat → ℚ
  | 90 => 0
  | 180 => -1
  | 270 => 0
  | _ => 1

/-- Modelled from the spec: sine of the four right angles (see `cosd`). -/
def sind : Nat → ℚ
  | 90 => 1
  | 180 => 0
  | 270 => -1
  | _ => 0

/-- The corrector's output: canvas dimensions plus the point transform
applied to frame pixels. -/
structure Corrected where
  canvasW : ℚ
  canvasH : ℚ
  transform : ℚ × ℚ → ℚ × ℚ

/-- Modelled from the spec: §4.4 `correct(frame, angleDeg)` — for angle
90 or 270 the canvas swaps width and height; the frame is drawn rotated
by `angleDeg` about the canvas center (the frame's own center is moved
to the canvas center); angle 0 leaves the frame at native resolution
with the identity transform. -/
def correct (w h : ℚ) (angle : Nat) : Corrected :=
  let cw := if angle = 90 ∨ angle = 270 then h else w
  let ch := if angle = 90 ∨ angle = 270 then w else h
  { canvasW := cw
  , canvasH := ch
  , transform := fun p =>
      (cw / 2 + cosd angle * (p.1 - w / 2) - sind angle * (p.2 - h / 2),
       ch / 2 + sind angle * (p.1 - w / 2) + cosd angle * (p.2 - h / 2)) }

/-! ## Concrete fixture inputs -/

/-- Concrete fallback response with `display_name`, `attraction` and
`city` all present. -/
def nomC1 : NomResponse :=
  { display_name := "Alpha Hall, Beta Street, Gamma City"
  , address := { attraction := "A", city := "C" } }

/-- The address line as the specification words it: the comma-joined
concatenation of exactly the non-empty fields among road,
neighbourhood-or-suburb, city-or-town-or-village, state, postcode,
country, in that fixed order. -/
def specAddressLine (a : NomAddress) : String :=
  String.intercalate ", "
    (([a.road,
       if a.neighbourhood ≠ "" then a.neighbourhood else a.suburb,
       if a.city ≠ "" then a.city else if a.town ≠ "" then a.town else a.village,
       a.state, a.postcode, a.country]).filter (fun s => !(s == "")))

/-- The end-to-end fixture response:
`{attraction: "Landmark X", road: "Main St", city: "Townsville", country: "Country Y"}`. -/
def nomC3 : NomResponse :=
  { address := { attraction := "Landmark X", road := "Main St",
                 city := "Townsville", country := "Country Y" } }

/-- Concrete Google payload: a single establishment-typed result with a
multi-segment formatted address. -/
def geoC7 : GoogleGeo :=
  { results := [ { types := ["establishment"],
                   formatted_address := "Eiffel Tower, Paris, France" } ] }

/-- Concrete one-result Google payload for the C7 witness. -/
def geoC7w : GoogleGeo :=
  { results := [ { types := ["point_of_interest"], formatted_address := "Opera House, Sydney" } ] }

/-! ## Supporting lemmas -/

theorem jsOrChain_eq_firstNonEmpty (l : List String) :
    jsOrChain l = firstNonEmpty l := by
  induction l with
  | nil => rfl
  | cons x l ih =>
    by_cases hx : x = ""
    · subst hx
      simp [jsOrChain, jsOr, firstNonEmpty, List.find?] at ih ⊢
      exact ih
    · have hb : (!(x == "")) = true := by simp [hx]
      simp [jsOrChain, jsOr, firstNonEmpty, List.find?, hx, hb]

theorem jsOr_eq_ite (a b : String) : jsOr a b = if a ≠ "" then a else b := by
  by_cases h : a = "" <;> simp [jsOr, h]

theorem find?_first {α : Type} (p : α → Bool) (pre post : List α) (r : α)
    (hr : p r = true) (hpre : ∀ x ∈ pre, p x = false) :
    (pre ++ r :: post).find? p = some r := by
  induction pre with
  | nil => simp [List.find?, hr]
  | cons a l ih =>
    have ha : p a = false := hpre a (by simp)
    simpa [List.find?, ha] using ih (fun x hx => hpre x (by simp [hx]))

theorem frac6_length (n : Nat) : (frac6 n).length = 6 := rfl

theorem digitCh_isDigit (n : Nat) : (digitCh n).isDigit = true := by
  have h : n % 10 < 10 := Nat.mod_lt _ (by norm_num)
  unfold digitCh
  set d := n % 10 with hd
  interval_cases d <;> decide

theorem frac6_digits (n : Nat) : ∀ c ∈ (frac6 n).data, c.isDigit = true := by
  intro c hc
  have hc' : c = digitCh (n / 100000) ∨ c = digitCh (n / 10000) ∨ c = digitCh (n / 1000)
      ∨ c = digitCh (n / 100) ∨ c = digitCh (n / 10) ∨ c = digitCh n := by
    simpa [frac6] using hc
  rcases hc' with rfl | rfl | rfl | rfl | rfl | rfl <;> exact digitCh_isDigit _

/-! ## Claim C8 — `formatOffset` -/

/-- C8 counterexample: the claim asserts the rendered hour component
satisfies `|hh| ≤ 23` for *every* integer offset, but `formatOffset`
never clamps: at `m = -1440` (24 hours ahead of UTC) the hour component
is 24. -/
theorem c8_formatOffset_counterexample :
    formatOffset (-1440) = "+24:00" ∧ (-1440 : Int).natAbs / 60 = 24 ∧ ¬(24 ≤ 23) := by
  refine ⟨by decide, by decide, by decide⟩

/-- C8 (amended): `formatOffset m` renders sign `+` for `m ≤ 0` and `-`
for `m > 0` (the negation of `m`'s sign, with `+` at zero), hour
component `|m| / 60` — bounded by 23 only when `|m| ≤ 1439`, i.e. the
offset is under one day; the function itself never clamps — and minutes
component `|m| % 60 ∈ [0, 59]`; `formatOffset (-300) = "+05:00"`. -/
theorem c8_formatOffset_amended (m : Int) :
    formatOffset m
      = (if m ≤ 0 then "+" else "-") ++ pad (m.natAbs / 60) ++ ":" ++ pad (m.natAbs % 60)
    ∧ m.natAbs % 60 ≤ 59
    ∧ (m.natAbs ≤ 1439 → m.natAbs / 60 ≤ 23)
    ∧ formatOffset (-300) = "+05:00" := by
  refine ⟨?_, by omega, by omega, by decide⟩
  have h : ((0 : Int) ≤ -m) = (m ≤ 0) := by
    apply propext; omega
  simp only [formatOffset, Int.natAbs_neg, h]

/-- C8 witness: the amended theorem applied at `m = 90` (an hour and a
half behind UTC). -/
theorem c8_formatOffset_amended_witness :
    (90 : Int).natAbs ≤ 1439 ∧ (90 : Int).natAbs / 60 ≤ 23 ∧ formatOffset 90 = "-01:30" := by
  refine ⟨by decide, (c8_formatOffset_amended 90).2.2.1 (by decide), ?_⟩
  rw [(c8_formatOffset_amended 90).1]
  decide

/-! ## Claim C10 — zero coordinates and the map placeholder -/

/-- C10: a fix with latitude or longitude exactly 0 makes `buildMapUrl`
return `null` (JS truthiness), so the map region of the stamp draws the
flat placeholder square — exactly the ops drawn when no fix exists. -/
theorem c10_zero_coordinate_placeholder :
    ∀ (key : String) (g : GeoFix) (size : ℚ),
      (g.latitude = 0 ∨ g.longitude = 0) →
      buildMapUrl key g.latitude g.longitude size = none
      ∧ ∀ (fetchOk : Bool) (x y s : ℚ),
          mapOps (mapUrlOf (some g) key size) fetchOk x y s
            = [DrawOp.mapPlaceholder x y s s]
          ∧ mapOps (mapUrlOf (some g) key size) fetchOk x y s
            = mapOps (mapUrlOf none key size) fetchOk x y s := by
  intro key g size h
  have hurl : buildMapUrl key g.latitude g.longitude size = none := by
    simp [buildMapUrl, h]
  have hmap : mapUrlOf (some g) key size = none := by
    rcases h with h | h <;> simp [mapUrlOf, h, hurl]
  refine ⟨hurl, fun fetchOk x y s => ?_⟩
  rw [hmap]
  exact ⟨rfl, rfl⟩

/-- C10 witness: the theorem applied to the fix `(0, 10)` on the
equator. -/
theorem c10_zero_coordinate_placeholder_witness :
    buildMapUrl "k" (0 : ℚ) 10 220 = none
    ∧ mapOps (mapUrlOf (some ⟨0, 10⟩) "k" 220) true 1 2 3
        = [DrawOp.mapPlaceholder 1 2 3 3] := by
  have h := c10_zero_coordinate_placeholder "k" ⟨0, 10⟩ 220 (Or.inl rfl)
  exact ⟨h.1, (h.2 true 1 2 3).1⟩

/-! ## Claim C9 — coordinate line precision -/

/-- C9 counterexample: a GeoFix on the equator, latitude exactly 0,
*exists* — yet the coordinate line renders the em-dash placeholder,
because the code tests `lat` with JS truthiness, not fix existence. -/
theorem c9_coordLine_counterexample :
    coordLine (some ⟨0, 10⟩) = "Lat — Long —"
    ∧ (some (⟨0, 10⟩ : GeoFix)).isSome = true := by
  exact ⟨by decide, rfl⟩

/-- C9 (amended): the coordinate line renders latitude and longitude
each with exactly 6 decimal places whenever a fix exists *and its
latitude is non-zero*; with no fix — or with a fix whose latitude equals
0 — it renders the em-dash placeholder for both fields. -/
theorem c9_coordLine_amended (g : GeoFix) :
    coordLine none = "Lat — Long —"
    ∧ (g.latitude = 0 → coordLine (some g) = "Lat — Long —")
    ∧ (g.latitude ≠ 0 →
        ∃ a1 b1 a2 b2 : String,
          coordLine (some g)
            = "Lat " ++ (a1 ++ "." ++ b1) ++ "° Long " ++ (a2 ++ "." ++ b2) ++ "°"
          ∧ b1.length = 6 ∧ b2.length = 6
          ∧ (∀ c ∈ b1.data, c.isDigit = true) ∧ (∀ c ∈ b2.data, c.isDigit = true)) := by
  refine ⟨rfl, fun h => by simp [coordLine, h], fun h => ?_⟩
  refine ⟨(if g.latitude < 0 then "-" else "")
      ++ toString ((⌊|g.latitude| * 1000000 + 1/2⌋).toNat / 1000000),
    frac6 (⌊|g.latitude| * 1000000 + 1/2⌋).toNat,
    (if g.longitude < 0 then "-" else "")
      ++ toString ((⌊|g.longitude| * 1000000 + 1/2⌋).toNat / 1000000),
    frac6 (⌊|g.longitude| * 1000000 + 1/2⌋).toNat,
    ?_, frac6_length _, frac6_length _, frac6_digits _, frac6_digits _⟩
  rw [show coordLine (some g)
      = "Lat " ++ toFixed6 g.latitude ++ "° Long " ++ toFixed6 g.longitude ++ "°" from by
    simp [coordLine, h]]
  simp [toFixed6, String.append_assoc]

/-- C9 witness: the amended theorem applied at the fix
`(37.422, -122.084)` of the end-to-end fixture. -/
theorem c9_coordLine_amended_witness :
    ∃ a1 b1 a2 b2 : String,
      coordLine (some ⟨37422/1000, -122084/1000⟩)
        = "Lat " ++ (a1 ++ "." ++ b1) ++ "° Long " ++ (a2 ++ "." ++ b2) ++ "°"
      ∧ b1.length = 6 ∧ b2.length = 6
      ∧ (∀ c ∈ b1.data, c.isDigit = true) ∧ (∀ c ∈ b2.data, c.isDigit = true) :=
  (c9_coordLine_amended ⟨37422/1000, -122084/1000⟩).2.2 (by norm_num)

/-! ## Claim C4 — map fetch failure and compositing -/

/-- C4 counterexample: with a valid fix and a failing map fetch, the
draw sequence contains *no* placeholder square (and no map image) — the
`catch` block ignores the failure instead of drawing the placeholder —
although compositing does continue (the badge is still drawn). -/
theorem c4_map_failure_counterexample :
    ((drawStampOps "k" 1280 720 (some ⟨37, -122⟩)
        "L" "A" "R" "T" false).any isMapPlaceholderB = false)
    ∧ ((drawStampOps "k" 1280 720 (some ⟨37, -122⟩)
        "L" "A" "R" "T" false).any isMapImageB = false)
    ∧ ((drawStampOps "k" 1280 720 (some ⟨37, -122⟩)
        "L" "A" "R" "T" false).any isBadgeLabelB = true) := by
  refine ⟨by decide, by decide, by decide⟩

/-- C4 (amended): every map-fetch failure is caught and ignored — the
map region receives *no* drawing at all (`mapOps` is empty on failure;
the flat placeholder square, which has no marker glyph, is drawn only
when no map URL exists) — and the rest of the draw sequence (text,
badge) is never aborted: `drawStampOps` always consists of the panel op,
the map-region ops and the full text/badge tail, which always contains
the badge label. -/
theorem c4_map_failure_amended :
    (∀ (u : MapRequest) (x y s : ℚ), mapOps (some u) false x y s = [])
    ∧ (∀ (fetchOk : Bool) (x y s : ℚ),
        mapOps none fetchOk x y s = [DrawOp.mapPlaceholder x y s s])
    ∧ (∀ (key : String) (w h : ℚ) (coords : Option GeoFix)
        (lm l2 ar ts : String) (fetchOk : Bool),
        drawStampOps key w h coords lm l2 ar ts fetchOk
          = stampPanelOp w h
              :: (mapOps (mapUrlOf coords key (mapReqSize w h)) fetchOk
                    (mapXof w h) (mapYof w h) (mapSizeOf w h)
                  ++ stampTail w h coords lm l2 ar ts)
        ∧ (stampTail w h coords lm l2 ar ts).any isBadgeLabelB = true) := by
  refine ⟨fun u x y s => rfl, fun fetchOk x y s => rfl,
    fun key w h coords lm l2 ar ts fetchOk => ⟨rfl, ?_⟩⟩
  simp [stampTail, isBadgeLabelB]

/-! ## Claim C5 — frame orientation correction -/

/-- C5: the orientation corrector (modelled from spec §4.4; see
`correct`) swaps canvas width and height for angles 90 and 270 — a
1920×1080 frame yields a 1080×1920 canvas — and its center rotation maps
the frame rectangle `[0,w]×[0,h]` exactly onto the swapped canvas
(`(x,y) ↦ (h-y, x)` at 90°, `(x,y) ↦ (y, w-x)` at 270°); at angle 0 the
canvas keeps native dimensions and the transform is the identity, so the
top-left source pixel maps to the top-left destination pixel (no
horizontal flip).  The `src/` capture path (`captureDims`, App.jsx lines
321-327) draws at native size unrotated, agreeing with the angle-0
case. -/
theorem c5_orientation_correct :
    ((correct 1920 1080 90).canvasW = 1080 ∧ (correct 1920 1080 90).canvasH = 1920)
    ∧ (∀ w h : ℚ, (correct w h 90).canvasW = h ∧ (correct w h 90).canvasH = w
        ∧ (correct w h 270).canvasW = h ∧ (correct w h 270).canvasH = w)
    ∧ (∀ (w h : ℚ) (p : ℚ × ℚ),
        (correct w h 90).transform p = (h - p.2, p.1)
        ∧ (correct w h 270).transform p = (p.2, w - p.1))
    ∧ (∀ w h : ℚ, (correct w h 0).canvasW = w ∧ (correct w h 0).canvasH = h)
    ∧ (∀ (w h : ℚ) (p : ℚ × ℚ), (correct w h 0).transform p = p)
    ∧ captureDims 1920 1080 = (1920, 1080) := by
  refine ⟨⟨by norm_num [correct], by norm_num [correct]⟩,
    fun w h => ⟨by simp [correct], by simp [correct], by simp [correct], by simp [correct]⟩,
    fun w h p => ⟨?_, ?_⟩, fun w h => ⟨by simp [correct], by simp [correct]⟩,
    fun w h p => ?_, rfl⟩
  · simp only [correct, cosd, sind]
    norm_num
    ring
  · simp only [correct, cosd, sind]
    norm_num
    ring
  · simp only [correct, cosd, sind]
    norm_num

/-! ## Claim C1 — Nominatim landmark preference order -/

/-- C1 counterexample: the claim promises that with `attraction` and
`city` both present the landmark equals the `attraction` value; but
`display_name` takes precedence over every address field — its first
comma segment (here "Alpha Hall", under 40 characters) is returned, not
the attraction. -/
theorem c1_nominatim_landmark_counterexample :
    nomC1.address.attraction = "A" ∧ nomC1.address.city = "C"
    ∧ extractNominatimLandmark (some nomC1) = "Alpha Hall"
    ∧ ¬ extractNominatimLandmark (some nomC1) = nomC1.address.attraction := by
  refine ⟨rfl, rfl, by decide, by decide⟩

/-- C1 (amended): for a fallback response whose `display_name` is absent
the landmark is the first non-empty field in the order `name`,
`attraction`, `building`, `leisure`, `amenity`, `poi`, `town`,
`village`, `city`, `suburb`, `neighbourhood`, `road` (note `poi` sits
between `amenity` and the town tier, and the town tier is ordered
`town`, `village`, `city`); in particular, with `name` absent and
`attraction` present, the landmark is the attraction value — never the
city.  When `display_name` is present, its first comma segment (if
non-empty and shorter than 40 characters) pre-empts the address
fields. -/
theorem c1_nominatim_landmark_amended (nom : NomResponse)
    (hd : nom.display_name = "") :
    extractNominatimLandmark (some nom)
      = firstNonEmpty (nom.name :: nomAddrFields nom.address)
    ∧ (nom.name = "" → nom.address.attraction ≠ "" →
        extractNominatimLandmark (some nom) = nom.address.attraction) := by
  by_cases hn : nom.name = ""
  · have he : extractNominatimLandmark (some nom)
        = jsOrChain (nomAddrFields nom.address) := by
      simp [extractNominatimLandmark, hn, hd]
    constructor
    · rw [he, jsOrChain_eq_firstNonEmpty, hn]
      simp [firstNonEmpty, List.find?]
    · intro _ ha
      rw [he]
      simp [nomAddrFields, jsOrChain, jsOr, ha]
  · have hb : (!(nom.name == "")) = true := by simp [hn]
    constructor
    · simp [extractNominatimLandmark, hn, firstNonEmpty, List.find?, hb]
    · intro h0
      exact absurd h0 hn

/-- C1 witness: the amended theorem applied to a response carrying only
`attraction` and `city`. -/
theorem c1_nominatim_landmark_amended_witness :
    extractNominatimLandmark
        (some { address := { attraction := "Water Gardens", city := "Springfield" } })
      = "Water Gardens"
    ∧ firstNonEmpty
        (({ address := { attraction := "Water Gardens", city := "Springfield" } : NomResponse}).name
          :: nomAddrFields
            ({ address := { attraction := "Water Gardens", city := "Springfield" } : NomResponse}).address)
      = "Water Gardens" := by
  have h := c1_nominatim_landmark_amended
    { address := { attraction := "Water Gardens", city := "Springfield" } } rfl
  exact ⟨h.2 rfl (by decide), by rw [← h.1]; exact h.2 rfl (by decide)⟩

/-! ## Claim C2 — Google establishment preference -/

/-- C2: the Google resolver selects the establishment-typed result no
matter where it sits in the result list (any prefix of non-qualifying
results is skipped), and with no qualifying result it uses the first
result. -/
theorem c2_google_establishment_selected :
    (∀ (geo : GoogleGeo) (pre post : List GResult) (r : GResult),
        geo.results = pre ++ r :: post →
        isEstablishment r = true →
        (∀ x ∈ pre, isEstablishment x = false) →
        extractGoogleLandmark (some geo) = gField r)
    ∧ (∀ (geo : GoogleGeo) (r : GResult) (post : List GResult),
        geo.results = r :: post →
        (∀ x ∈ geo.results, isEstablishment x = false) →
        extractGoogleLandmark (some geo) = gFallbackField r) := by
  constructor
  · intro geo pre post r hres hr hpre
    have hfind : geo.results.find? isEstablishment = some r := by
      rw [hres]
      exact find?_first _ pre post r hr hpre
    simp [extractGoogleLandmark, hfind]
  · intro geo r post hres hall
    have hfind : List.find? isEstablishment (r :: post) = none := by
      rw [← hres, List.find?_eq_none]
      intro x hx
      simp [hall x hx]
    simp [extractGoogleLandmark, hres, hfind]

/-- C2 witness: with the establishment result listed *second*, it is
still the one selected; with no establishment result, the first result
is used. -/
theorem c2_google_establishment_selected_witness :
    extractGoogleLandmark (some { results :=
        [ { formatted_address := "1 Plain St" },
          { types := ["establishment"], formatted_address := "POI Place" } ] })
      = "POI Place"
    ∧ extractGoogleLandmark (some { results := [ { formatted_address := "1 Plain St" } ] })
      = "1 Plain St" := by
  constructor
  · have h := c2_google_establishment_selected.1
      { results := [ { formatted_address := "1 Plain St" },
          { types := ["establishment"], formatted_address := "POI Place" } ] }
      [ { formatted_address := "1 Plain St" } ] []
      { types := ["establishment"], formatted_address := "POI Place" }
      rfl (by decide) (by decide)
    rw [h]
    decide
  · have h := c2_google_establishment_selected.2
      { results := [ { formatted_address := "1 Plain St" } ] }
      { formatted_address := "1 Plain St" } [] rfl (by decide)
    rw [h]
    decide

/-! ## Claim C3 — fallback address line -/

/-- C3: the fallback `addressLine` is exactly the spec's comma-joined
non-empty subset in fixed order, and on the end-to-end fixture the
resolved landmark is "Landmark X", the address line is
"Main St, Townsville, Country Y", and the exported stamp's draw sequence
wraps exactly those two texts. -/
theorem c3_nominatim_addressLine :
    (∀ j : NomResponse, (nominatimPlaceInfo j).addressLine = specAddressLine j.address)
    ∧ (nominatimPlaceInfo nomC3).landmark = "Landmark X"
    ∧ (nominatimPlaceInfo nomC3).addressLine = "Main St, Townsville, Country Y"
    ∧ ∀ fetchOk : Bool,
        ((drawStampOps "" 1280 720 (some ⟨37422/1000, (-122084)/1000⟩)
            (nominatimPlaceInfo nomC3).landmark (nominatimPlaceInfo nomC3).addressLine
            (nominatimPlaceInfo nomC3).fullAddress "ts" fetchOk).any
          (isWrapTextOf "Landmark X") = true)
        ∧ ((drawStampOps "" 1280 720 (some ⟨37422/1000, (-122084)/1000⟩)
            (nominatimPlaceInfo nomC3).landmark (nominatimPlaceInfo nomC3).addressLine
            (nominatimPlaceInfo nomC3).fullAddress "ts" fetchOk).any
          (isWrapTextOf "Main St, Townsville, Country Y") = true) := by
  refine ⟨?_, by decide, by decide, ?_⟩
  · intro j
    simp [nominatimPlaceInfo, nominatimParts, specAddressLine, jsOr_eq_ite]
  · intro fetchOk
    have h1 : (stampTail 1280 720 (some ⟨37422/1000, (-122084)/1000⟩)
        (nominatimPlaceInfo nomC3).landmark (nominatimPlaceInfo nomC3).addressLine
        (nominatimPlaceInfo nomC3).fullAddress "ts").any
        (isWrapTextOf "Landmark X") = true := by decide
    have h2 : (stampTail 1280 720 (some ⟨37422/1000, (-122084)/1000⟩)
        (nominatimPlaceInfo nomC3).landmark (nominatimPlaceInfo nomC3).addressLine
        (nominatimPlaceInfo nomC3).fullAddress "ts").any
        (isWrapTextOf "Main St, Townsville, Country Y") = true := by decide
    constructor
    · simp only [drawStampOps, List.any_cons, List.any_append, h1]
      simp
    · simp only [drawStampOps, List.any_cons, List.any_append, h2]
      simp

/-! ## Claim C7 — Google landmark field -/

/-- C7 counterexample: the claim says the landmark is the *first
comma-delimited segment* of the chosen result's formatted address; the
code returns the *whole* formatted address. -/
theorem c7_google_landmark_counterexample :
    extractGoogleLandmark (some geoC7) = "Eiffel Tower, Paris, France"
    ∧ firstSegment "Eiffel Tower, Paris, France" = "Eiffel Tower"
    ∧ ¬ extractGoogleLandmark (some geoC7)
        = firstSegment "Eiffel Tower, Paris, France" := by
  refine ⟨by decide, by decide, by decide⟩

/-- C7 (amended): on primary-provider success the landmark is the chosen
result's *full* formatted address (falling back to the first address
component's name only when the formatted address is empty), and both
`addressLine` and `fullAddress` equal the first result's formatted
address. -/
theorem c7_google_placeinfo_amended :
    (∀ (geo : GoogleGeo) (pre post : List GResult) (r : GResult),
        geo.results = pre ++ r :: post →
        isEstablishment r = true →
        (∀ x ∈ pre, isEstablishment x = false) →
        r.formatted_address ≠ "" →
        (googlePlaceInfo geo).landmark = r.formatted_address)
    ∧ (∀ geo : GoogleGeo,
        (googlePlaceInfo geo).addressLine = firstFormatted geo
        ∧ (googlePlaceInfo geo).fullAddress = firstFormatted geo) := by
  constructor
  · intro geo pre post r hres hr hpre hfa
    have hfind : geo.results.find? isEstablishment = some r := by
      rw [hres]
      exact find?_first _ pre post r hr hpre
    simp [googlePlaceInfo, extractGoogleLandmark, hfind, gField, jsOr, hfa]
  · intro geo
    exact ⟨rfl, rfl⟩

/-- C7 witness: the amended theorem applied to a one-result payload. -/
theorem c7_google_placeinfo_amended_witness :
    (googlePlaceInfo geoC7w).landmark = "Opera House, Sydney"
    ∧ (googlePlaceInfo geoC7w).addressLine = firstFormatted geoC7w := by
  refine ⟨?_, (c7_google_placeinfo_amended.2 _).1⟩
  exact c7_google_placeinfo_amended.1 geoC7w
    [] [] { types := ["point_of_interest"], formatted_address := "Opera House, Sydney" }
    rfl (by decide) (by decide) (by decide)

/-! ## Claim C6 — greedy word wrap: supporting lemmas -/

theorem append_word_ne_empty (a b : String) : a ++ " " ++ b ≠ "" := by
  intro h
  have hd : (a ++ " " ++ b).data = ("" : String).data := congrArg String.data h
  simp [String.data_append] at hd

theorem joinW_cons_ne (a : String) (l : List String) (h : l ≠ []) :
    joinW (a :: l) = a ++ " " ++ joinW l := by
  cases l with
  | nil => exact absurd rfl h
  | cons b l => rfl

theorem joinW_glue (a b : String) (l : List String) :
    joinW ((a ++ " " ++ b) :: l) = joinW (a :: b :: l) := by
  cases l with
  | nil => rfl
  | cons c l => simp [joinW, String.append_assoc]

theorem joinW_ne_empty (a : String) (l : List String) (ha : a ≠ "") :
    joinW (a :: l) ≠ "" := by
  cases l with
  | nil => simpa [joinW] using ha
  | cons b l =>
    rw [joinW_cons_ne a (b :: l) (by simp)]
    exact append_word_ne_empty _ _

theorem joinW_append_ne : ∀ (l1 : List String), l1 ≠ [] → ∀ (l2 : List String), l2 ≠ [] →
    joinW (l1 ++ l2) = joinW l1 ++ " " ++ joinW l2
  | [], h1, _, _ => absurd rfl h1
  | [a], _, l2, h2 => by
    simp only [List.singleton_append]
    exact joinW_cons_ne a l2 h2
  | a :: b :: l1, _, l2, h2 => by
    have ih := joinW_append_ne (b :: l1) (by simp) l2 h2
    show joinW (a :: ((b :: l1) ++ l2)) = joinW (a :: b :: l1) ++ " " ++ joinW l2
    rw [joinW_cons_ne a ((b :: l1) ++ l2) (by simp), ih,
      joinW_cons_ne a (b :: l1) (by simp)]
    simp [String.append_assoc]

theorem wf_joinW_prefix (wf : String → Nat) (hmono : ∀ s t, wf s ≤ wf (s ++ t))
    (l1 l2 : List String) (h1 : l1 ≠ []) :
    wf (joinW l1) ≤ wf (joinW (l1 ++ l2)) := by
  cases l2 with
  | nil => simp
  | cons b l2 =>
    rw [joinW_append_ne l1 h1 (b :: l2) (by simp), String.append_assoc]
    exact hmono _ _

theorem wrapLoop_noflush (wf : String → Nat) (maxW lh : Nat) (ws : List String) :
    ∀ (line : String) (y : Nat), line ≠ "" →
      (∀ n, n < ws.length → wf (joinW (line :: ws.take (n + 1))) ≤ maxW) →
      wrapLoop wf maxW lh ws line y = [(joinW (line :: ws), y)] := by
  induction ws with
  | nil =>
    intro line y hline _
    simp [wrapLoop, hline, joinW]
  | cons w ws ih =>
    intro line y hline h
    have h0 : wf (line ++ " " ++ w) ≤ maxW := by
      have h0' := h 0 (by simp)
      simpa [joinW_cons_ne, joinW] using h0'
    have htest : (if line ≠ "" then line ++ " " ++ w else w) = line ++ " " ++ w :=
      if_pos hline
    simp only [wrapLoop, htest]
    rw [if_neg (by intro hc; exact absurd hc.1 (by omega))]
    have ihh : ∀ n, n < ws.length →
        wf (joinW ((line ++ " " ++ w) :: ws.take (n + 1))) ≤ maxW := by
      intro n hn
      rw [joinW_glue]
      have hh := h (n + 1) (by simpa using Nat.succ_lt_succ hn)
      simpa using hh
    rw [ih (line ++ " " ++ w) y (append_word_ne_empty _ _) ihh, joinW_glue]

theorem wrapLoop_accum (wf : String → Nat) (maxW lh : Nat) (pre : List String) :
    ∀ (rest : List String) (line : String) (y : Nat), line ≠ "" →
      (∀ n, n < pre.length → wf (joinW (line :: pre.take (n + 1))) ≤ maxW) →
      wrapLoop wf maxW lh (pre ++ rest) line y
        = wrapLoop wf maxW lh rest (joinW (line :: pre)) y := by
  induction pre with
  | nil =>
    intro rest line y hline _
    simp [joinW]
  | cons p pre ih =>
    intro rest line y hline h
    have h0 : wf (line ++ " " ++ p) ≤ maxW := by
      have h0' := h 0 (by simp)
      simpa [joinW_cons_ne, joinW] using h0'
    have htest : (if line ≠ "" then line ++ " " ++ p else p) = line ++ " " ++ p :=
      if_pos hline
    simp only [List.cons_append, wrapLoop, htest]
    rw [if_neg (by intro hc; exact absurd hc.1 (by omega))]
    have ihh : ∀ n, n < pre.length →
        wf (joinW ((line ++ " " ++ p) :: pre.take (n + 1))) ≤ maxW := by
      intro n hn
      rw [joinW_glue]
      have hh := h (n + 1) (by simpa using Nat.succ_lt_succ hn)
      simpa using hh
    simp only [List.append_eq]
    rw [ih rest (line ++ " " ++ p) y (append_word_ne_empty _ _) ihh, joinW_glue]

theorem wrapLoop_width_bound (wf : String → Nat) (maxW lh : Nat) (A : List String)
    (ws : List String) :
    ∀ (line : String) (y : Nat),
      (line = "" ∨ wf line ≤ maxW ∨ line ∈ A) →
      (∀ w ∈ ws, w ∈ A) →
      ∀ p ∈ wrapLoop wf maxW lh ws line y, wf p.1 ≤ maxW ∨ p.1 ∈ A := by
  induction ws with
  | nil =>
    intro line y hline _ p hp
    by_cases hl : line = ""
    · simp [wrapLoop, hl] at hp
    · simp only [wrapLoop, if_pos hl, List.mem_singleton] at hp
      subst hp
      exact hline.resolve_left hl
  | cons w ws ih =>
    intro line y hline hws p hp
    by_cases hl : line = ""
    · subst hl
      simp [wrapLoop] at hp
      exact ih w y (Or.inr (Or.inr (hws w (by simp))))
        (fun x hx => hws x (by simp [hx])) p hp
    · have htest : (if line ≠ "" then line ++ " " ++ w else w) = line ++ " " ++ w :=
        if_pos hl
      simp only [wrapLoop, htest] at hp
      by_cases hc : wf (line ++ " " ++ w) > maxW
      · rw [if_pos ⟨hc, hl⟩] at hp
        rcases List.mem_cons.mp hp with rfl | hp'
        · simpa using hline.resolve_left hl
        · exact ih w (y + lh) (Or.inr (Or.inr (hws w (by simp))))
            (fun x hx => hws x (by simp [hx])) p hp'
      · rw [if_neg (by intro hcc; exact hc hcc.1)] at hp
        exact ih (line ++ " " ++ w) y (Or.inr (Or.inl (by omega)))
          (fun x hx => hws x (by simp [hx])) p hp

theorem wrapLoop_two_lines (wf : String → Nat) (maxW lh : Nat) (ws : List String) (k : Nat)
    (hmono : ∀ s t, wf s ≤ wf (s ++ t))
    (hne : ∀ w ∈ ws, w ≠ "")
    (hk0 : 0 < k) (hkl : k < ws.length)
    (hfit1 : wf (joinW (ws.take k)) ≤ maxW)
    (hover : maxW < wf (joinW (ws.take (k + 1))))
    (hfit2 : wf (joinW (ws.drop k)) ≤ maxW) :
    ∀ y, wrapLoop wf maxW lh ws "" y
      = [(joinW (ws.take k), y), (joinW (ws.drop k), y + lh)] := by
  intro y
  obtain ⟨w0, rest, rfl⟩ : ∃ w0 rest, ws = w0 :: rest := by
    cases hcase : ws with
    | nil =>
      rw [hcase] at hkl
      simp at hkl
    | cons a l => exact ⟨a, l, rfl⟩
  obtain ⟨k', rfl⟩ : ∃ k', k = k' + 1 := ⟨k - 1, by omega⟩
  have htake_ne : ∀ m : Nat, 0 < m → (w0 :: rest).take m ≠ [] := by
    intro m hm
    cases m with
    | zero => omega
    | succ m => simp
  have hw0 : w0 ≠ "" := hne w0 (by simp)
  have hstep1 : wrapLoop wf maxW lh (w0 :: rest) "" y = wrapLoop wf maxW lh rest w0 y := by
    simp [wrapLoop]
  have hpre : ∀ n, n < (rest.take k').length →
      wf (joinW (w0 :: (rest.take k').take (n + 1))) ≤ maxW := by
    intro n hn
    have hn' : n + 1 ≤ k' := by
      rw [List.length_take] at hn
      omega
    have e1 : (rest.take k').take (n + 1) = rest.take (n + 1) := by
      rw [List.take_take]
      congr 1
      omega
    have e2 : w0 :: rest.take (n + 1) = (w0 :: rest).take (n + 2) := by
      simp
    rw [e1, e2]
    have e3 : ((w0 :: rest).take (k' + 1)).take (n + 2) = (w0 :: rest).take (n + 2) := by
      rw [List.take_take]
      congr 1
      omega
    calc wf (joinW ((w0 :: rest).take (n + 2)))
        ≤ wf (joinW ((w0 :: rest).take (n + 2)
            ++ ((w0 :: rest).take (k' + 1)).drop (n + 2))) :=
          wf_joinW_prefix wf hmono _ _ (htake_ne (n + 2) (by omega))
      _ = wf (joinW ((w0 :: rest).take (k' + 1))) := by
          rw [← e3, List.take_append_drop]
      _ ≤ maxW := hfit1
  have hphase1 : wrapLoop wf maxW lh rest w0 y
      = wrapLoop wf maxW lh (rest.drop k') (joinW (w0 :: rest.take k')) y := by
    conv_lhs => rw [← List.take_append_drop k' rest]
    exact wrapLoop_accum wf maxW lh (rest.take k') (rest.drop k') w0 y hw0 hpre
  have hL1 : joinW (w0 :: rest.take k') = joinW ((w0 :: rest).take (k' + 1)) := by
    simp
  obtain ⟨wk, tail, hdk⟩ : ∃ wk tail, rest.drop k' = wk :: tail := by
    cases hcase : rest.drop k' with
    | nil =>
      exfalso
      have hlen := congrArg List.length hcase
      simp only [List.length_drop, List.length_nil] at hlen
      have hlen2 : (w0 :: rest).length = rest.length + 1 := by simp
      omega
    | cons a l => exact ⟨a, l, rfl⟩
  have hdrop : (w0 :: rest).drop (k' + 1) = wk :: tail := by
    simpa using hdk
  have hL1ne : joinW (w0 :: rest.take k') ≠ "" := joinW_ne_empty w0 _ hw0
  have hover' : wf (joinW (w0 :: rest.take k') ++ " " ++ wk) > maxW := by
    have e4 : (w0 :: rest).take (k' + 2) = (w0 :: rest).take (k' + 1) ++ [wk] := by
      conv_lhs => rw [show k' + 2 = (k' + 1) + 1 from rfl, List.take_add]
      rw [hdrop]
      simp
    have e5 : joinW ((w0 :: rest).take (k' + 1) ++ [wk])
        = joinW ((w0 :: rest).take (k' + 1)) ++ " " ++ wk := by
      rw [joinW_append_ne _ (htake_ne (k' + 1) (by omega)) [wk] (by simp)]
      rfl
    rw [hL1, ← e5, ← e4]
    exact hover
  have hflush : wrapLoop wf maxW lh (wk :: tail) (joinW (w0 :: rest.take k')) y
      = (joinW (w0 :: rest.take k'), y) :: wrapLoop wf maxW lh tail wk (y + lh) := by
    have htest : (if joinW (w0 :: rest.take k') ≠ "" then
        joinW (w0 :: rest.take k') ++ " " ++ wk else wk)
        = joinW (w0 :: rest.take k') ++ " " ++ wk := if_pos hL1ne
    simp only [wrapLoop, htest]
    rw [if_pos ⟨hover', hL1ne⟩]
  have hwk : wk ≠ "" := by
    refine hne wk ?_
    have : wk ∈ rest.drop k' := by
      rw [hdk]
      simp
    exact List.mem_cons_of_mem w0 (List.mem_of_mem_drop this)
  have hpost : ∀ n, n < tail.length → wf (joinW (wk :: tail.take (n + 1))) ≤ maxW := by
    intro n hn
    have e6 : (wk :: tail.take (n + 1)) ++ tail.drop (n + 1) = wk :: tail := by
      simp [List.take_append_drop]
    calc wf (joinW (wk :: tail.take (n + 1)))
        ≤ wf (joinW ((wk :: tail.take (n + 1)) ++ tail.drop (n + 1))) :=
          wf_joinW_prefix wf hmono _ _ (by simp)
      _ = wf (joinW (wk :: tail)) := by rw [e6]
      _ ≤ maxW := by
          rw [← hdrop]
          exact hfit2
  have hphase2 : wrapLoop wf maxW lh tail wk (y + lh) = [(joinW (wk :: tail), y + lh)] :=
    wrapLoop_noflush wf maxW lh tail wk (y + lh) hwk hpost
  rw [hstep1, hphase1, hdk, hflush, hphase2, hL1, ← hdrop]

/-- C6: `wrapText` is a greedy word-wrap.  First, for any measuring
oracle monotone under appending and any text whose words fit within
`maxWidth` up to index `k`, overflow when word `k` is added, and fit on
one further line, exactly two lines are emitted — the first at `y`, the
second `lineHeight` below.  Second, every emitted line either measures
within `maxWidth` or is a single unsplittable word of the input. -/
theorem c6_wrapText_greedy :
    (∀ (wf : String → Nat) (text : String) (y maxW lineHeight k : Nat),
        (∀ s t : String, wf s ≤ wf (s ++ t)) →
        (∀ w ∈ jsSplitWs text, w ≠ "") →
        0 < k → k < (jsSplitWs text).length →
        wf (joinW ((jsSplitWs text).take k)) ≤ maxW →
        maxW < wf (joinW ((jsSplitWs text).take (k + 1))) →
        wf (joinW ((jsSplitWs text).drop k)) ≤ maxW →
        wrapText wf text y maxW lineHeight
          = [(joinW ((jsSplitWs text).take k), y),
             (joinW ((jsSplitWs text).drop k), y + lineHeight)])
    ∧ (∀ (wf : String → Nat) (text : String) (y maxW lineHeight : Nat),
        ∀ p ∈ wrapText wf text y maxW lineHeight,
          wf p.1 ≤ maxW ∨ p.1 ∈ jsSplitWs text) := by
  constructor
  · intro wf text y maxW lh k hmono hne hk0 hkl hfit1 hover hfit2
    exact wrapLoop_two_lines wf maxW lh (jsSplitWs text) k hmono hne hk0 hkl
      hfit1 hover hfit2 y
  · intro wf text y maxW lh p hp
    exact wrapLoop_width_bound wf maxW lh (jsSplitWs text) (jsSplitWs text) ""
      y (Or.inl rfl) (fun w hw => hw) p hp

/-- C6 witness: wrapping "aa bb cc" with character-count measuring at
width 5 emits exactly the two lines "aa bb" and "cc", the second one
`lineHeight = 7` below the first. -/
theorem c6_wrapText_greedy_witness :
    wrapText String.length "aa bb cc" 10 5 7 = [("aa bb", 10), ("cc", 17)] := by
  have h := c6_wrapText_greedy.1 String.length "aa bb cc" 10 5 7 2
    (fun s t => by rw [String.length_append]; omega)
    (by decide) (by decide) (by decide) (by decide) (by decide) (by decide)
  rw [h]
  decide
